import Mathlib

/-!
Verification of the `ai-code-connect` TypeScript repository: a shallow
embedding of its string sanitizers, conversation-relay envelopes, session
message log, and the `ToolDaemon` / `DaemonManager` process-supervisor state
machine (src/src/daemon.ts), together with theorems settling the frozen
claims about the natural-language specification.

Machine strings are modelled as Lean `String` (a list of characters);
JavaScript regex replacement is modelled by explicit left-to-right
non-overlapping scanners over `List Char`.
-/

namespace AicSpec

/-! ## Output sanitizer: `stripAnsi` (src/src/utils.ts lines 162-165)

The source is a global regex replacement by the empty string: delete, left
to right and non-overlapping, every occurrence of the ESC character (0x1B)
followed by either

* a single character in the class `@` to `Z` union backslash to underscore
  (0x40 to 0x5A, or 0x5C to 0x5F), or
* a CSI body: the character `[`, then any number of parameter bytes
  (0x30 to 0x3F), then any number of intermediate bytes (0x20 to 0x2F),
  then one final byte (0x40 to 0x7E).

The three CSI character classes are pairwise disjoint, so the greedy
JavaScript match is the deterministic maximal munch modelled here.  When no
alternative matches at an ESC, scanning resumes at the following character,
exactly as a JavaScript global regex does. -/

def escChar : Char := '\u001B'

def isEscSingle (c : Char) : Bool :=
  (0x40 ≤ c.toNat && c.toNat ≤ 0x5A) || (0x5C ≤ c.toNat && c.toNat ≤ 0x5F)

def isCsiParam (c : Char) : Bool := 0x30 ≤ c.toNat && c.toNat ≤ 0x3F

def isCsiInter (c : Char) : Bool := 0x20 ≤ c.toNat && c.toNat ≤ 0x2F

def isCsiFinal (c : Char) : Bool := 0x40 ≤ c.toNat && c.toNat ≤ 0x7E

/-- Scan the body of a CSI sequence after `ESC [`: parameter bytes, then
intermediate bytes (`inInter` records that an intermediate byte has been
seen), then one final byte.  Returns the remainder of the input after the
final byte, or `none` if the regex body does not match. -/
def csiScan : Bool → List Char → Option (List Char)
  | _, [] => none
  | inInter, c :: rest =>
    if !inInter && isCsiParam c then csiScan false rest
    else if isCsiInter c then csiScan true rest
    else if isCsiFinal c then some rest
    else none

/-- Fuel-indexed scanner for the global ANSI-escape replacement.  Each
recursive call consumes at least one input character and exactly one unit
of fuel, so fuel `l.length` always suffices; the fuel-exhausted branch
returns the input unchanged and is never reached from `stripAnsi`.
In the one-character case both source branches (a lone trailing ESC, and an
ordinary final character) keep the character. -/
def stripGo : Nat → List Char → List Char
  | 0, l => l
  | _ + 1, [] => []
  | fuel + 1, [c] => if c = escChar then [c] else c :: stripGo fuel []
  | fuel + 1, c :: c2 :: rest2 =>
    if c = escChar then
      if isEscSingle c2 then stripGo fuel rest2
      else if c2 = '[' then
        match csiScan false rest2 with
        | some t3 => stripGo fuel t3
        | none => c :: stripGo fuel (c2 :: rest2)
      else c :: stripGo fuel (c2 :: rest2)
    else c :: stripGo fuel (c2 :: rest2)

/-- `stripAnsi` from src/src/utils.ts. -/
def stripAnsi (s : String) : String := String.mk (stripGo s.data.length s.data)

theorem csiScan_sublist : ∀ (l : List Char) (b : Bool) (r : List Char),
    csiScan b l = some r → r.Sublist l := by
  intro l
  induction l with
  | nil => intro b r h; simp [csiScan] at h
  | cons c rest ih =>
    intro b r h
    simp only [csiScan] at h
    split_ifs at h with h1 h2 h3
    · exact (ih false r h).cons c
    · exact (ih true r h).cons c
    · injection h with h4
      subst h4
      exact List.sublist_cons_self c rest

theorem stripGo_sublist : ∀ (fuel : Nat) (l : List Char),
    (stripGo fuel l).Sublist l := by
  intro fuel
  induction fuel with
  | zero => intro l; exact List.Sublist.refl l
  | succ fuel ih =>
    intro l
    match l with
    | [] =>
      simp only [stripGo]
      exact List.Sublist.refl []
    | [c] =>
      simp only [stripGo]
      split_ifs with h1
      · exact List.Sublist.refl [c]
      · exact (ih []).cons₂ c
    | c :: c2 :: rest2 =>
      simp only [stripGo]
      split_ifs with h1 h2 h3
      · exact ((ih rest2).cons c2).cons c
      · cases hscan : csiScan false rest2 with
        | some t3 =>
          simp only [hscan]
          exact (((ih t3).trans (csiScan_sublist rest2 false t3 hscan)).cons c2).cons c
        | none =>
          simp only [hscan]
          exact (ih (c2 :: rest2)).cons₂ c
      · exact (ih (c2 :: rest2)).cons₂ c
      · exact (ih (c2 :: rest2)).cons₂ c

theorem stripGo_length_le (fuel : Nat) (l : List Char) :
    (stripGo fuel l).length ≤ l.length :=
  (stripGo_sublist fuel l).length_le

theorem stripGo_eq_of_length (fuel : Nat) (l : List Char)
    (h : (stripGo fuel l).length = l.length) : stripGo fuel l = l :=
  (stripGo_sublist fuel l).eq_of_length h

theorem stripGo_of_not_mem_esc : ∀ (fuel : Nat) (l : List Char),
    escChar ∉ l → stripGo fuel l = l := by
  intro fuel
  induction fuel with
  | zero => intro l _; rfl
  | succ fuel ih =>
    intro l hl
    match l with
    | [] => simp only [stripGo]
    | [c] =>
      have hc : ¬ c = escChar := fun h => hl (List.mem_singleton.mpr h.symm)
      simp only [stripGo, if_neg hc, ih [] (by simp)]
    | c :: c2 :: rest2 =>
      have hc : ¬ c = escChar := fun h => hl (by rw [← h]; exact List.mem_cons_self c _)
      have hrest : escChar ∉ (c2 :: rest2) := fun h => hl (List.mem_cons_of_mem c h)
      simp only [stripGo, if_neg hc, ih _ hrest]

theorem stripAnsi_length_le (s : String) : (stripAnsi s).length ≤ s.length :=
  stripGo_length_le s.data.length s.data

theorem stripAnsi_eq_of_length (s : String)
    (h : (stripAnsi s).length = s.length) : stripAnsi s = s :=
  congrArg String.mk (stripGo_eq_of_length s.data.length s.data h)

theorem stripAnsi_length_lt_of_ne (s : String) (h : stripAnsi s ≠ s) :
    (stripAnsi s).length < s.length :=
  lt_of_le_of_ne (stripAnsi_length_le s) (fun he => h (stripAnsi_eq_of_length s he))

theorem stripAnsi_of_not_mem_esc (s : String) (h : escChar ∉ s.data) :
    stripAnsi s = s :=
  congrArg String.mk (stripGo_of_not_mem_esc s.data.length s.data h)

/-! ## `jsTrim`: JavaScript `String.prototype.trim`

Removes leading and trailing JavaScript whitespace (ECMAScript WhiteSpace
and LineTerminator code points). -/

def jsWhitespace (c : Char) : Bool :=
  c = ' ' || c = '\t' || c = '\n' || c = '\r' ||
  c.toNat = 0x0B || c.toNat = 0x0C || c.toNat = 0xA0 || c.toNat = 0xFEFF ||
  c.toNat = 0x1680 || (0x2000 ≤ c.toNat && c.toNat ≤ 0x200A) ||
  c.toNat = 0x2028 || c.toNat = 0x2029 || c.toNat = 0x202F ||
  c.toNat = 0x205F || c.toNat = 0x3000

def jsTrim (s : String) : String :=
  String.mk (((s.data.dropWhile jsWhitespace).reverse.dropWhile jsWhitespace).reverse)

theorem jsTrim_sublist (s : String) : (jsTrim s).data.Sublist s.data := by
  have h1 : ((s.data.dropWhile jsWhitespace).reverse.dropWhile jsWhitespace).reverse.Sublist
      (s.data.dropWhile jsWhitespace) := by
    have h := (List.dropWhile_sublist (l := (s.data.dropWhile jsWhitespace).reverse)
      jsWhitespace).reverse
    rwa [List.reverse_reverse] at h
  exact h1.trans (List.dropWhile_sublist jsWhitespace)

theorem jsTrim_length_le (s : String) : (jsTrim s).length ≤ s.length :=
  (jsTrim_sublist s).length_le

theorem jsTrim_eq_of_length (s : String)
    (h : (jsTrim s).length = s.length) : jsTrim s = s := by
  have h2 := (jsTrim_sublist s).eq_of_length h
  cases s
  exact congrArg String.mk h2

theorem jsTrim_length_lt_of_ne (s : String) (h : jsTrim s ≠ s) :
    (jsTrim s).length < s.length :=
  lt_of_le_of_ne (jsTrim_length_le s) (fun he => h (jsTrim_eq_of_length s he))

/-! ## Conversation relay envelopes

Two distinct forward paths exist in the repository:

* `SDKSession.handleForward` (src/src/sdk-session.ts lines 615-650), used by
  the interactive `aic start` loop, and
* `SessionManager.forward` (src/src/session.ts lines 140-168), used by the
  `aic forward` CLI command.

They build different envelopes.  `handleForward` appends the additional
context iff the argument string is truthy, i.e. non-empty; `forward` builds
`prefixText ++ content ++ suffixText`, where the suffix (carrying the
closing fence) is present iff an additional prompt is supplied and truthy,
and the prefix can be overridden by a truthy `options.prefix`. -/

/-- Envelope of `SDKSession.handleForward` (sdk-session.ts lines 643-647);
`additionalMessage` is `parts.slice(1).join(' ')`, so a missing message is
the empty string, which is falsy in JavaScript. -/
def sdkForwardPrompt (sourceDisplayName content additionalMessage : String) : String :=
  let base := "Another AI assistant (" ++ sourceDisplayName ++
    ") provided this response. Please review and share your thoughts:\n\n---\n" ++
    content ++ "\n---"
  if additionalMessage = "" then base else
    base ++ "\n\nAdditional context: " ++ additionalMessage

/-- Default prefix of `SessionManager.forward` (session.ts lines 158-159);
`displayName` is the already-resolved `fromAdapter?.displayName || fromTool`. -/
def sessionForwardLeadIn (displayName : String) : String :=
  "Another AI assistant (" ++ displayName ++
    ") proposed the following. Please review and provide feedback:\n\n---\n"

/-- Envelope of `SessionManager.forward` (session.ts lines 158-165).
`leadInOpt` models `options?.prefix` and `additionalPrompt` the optional
extra message; both fall through when absent or empty (JavaScript
truthiness of `||` and of the conditional). -/
def sessionForwardPrompt (leadInOpt : Option String) (displayName content : String)
    (additionalPrompt : Option String) : String :=
  let pre := match leadInOpt with
    | some p => if p = "" then sessionForwardLeadIn displayName else p
    | none => sessionForwardLeadIn displayName
  let suf := match additionalPrompt with
    | some m => if m = "" then "" else "\n---\n\nAdditional context: " ++ m
    | none => ""
  pre ++ content ++ suf

/-- Modelled from the spec: the forward envelope of section 8 and section
4.4, `"Another AI assistant (<display name>) provided this response.
Please review and share your thoughts:"` around the fenced content, with
the additional-context suffix appended exactly when a message argument is
supplied.  Used to compare the two source envelopes against the claim. -/
def specForwardEnvelope (sourceDisplayName content additionalMessage : String) : String :=
  let base := "Another AI assistant (" ++ sourceDisplayName ++
    ") provided this response. Please review and share your thoughts:\n\n---\n" ++
    content ++ "\n---"
  if additionalMessage = "" then base else
    base ++ "\n\nAdditional context: " ++ additionalMessage

inductive Role where
  | user
  | assistant
deriving DecidableEq

/-- Message of the SDK session (sdk-session.ts lines 7-11). -/
structure Msg where
  tool : String
  role : Role
  content : String
deriving DecidableEq

/-- The last assistant-role message of the history:
`[...this.conversationHistory].reverse().find(m => m.role === 'assistant')`
(sdk-session.ts lines 617-619). -/
def lastAssistant (history : List Msg) : Option Msg :=
  history.reverse.find? (fun m => m.role = Role.assistant)

/-- `SDKSession.handleForward` (sdk-session.ts lines 615-650), reduced to
the data it produces: the target tool and the forwarded prompt, or `none`
when there is no assistant message to forward.  The source switches the
active tool to the target and routes the prompt through `sendToTool`. -/
def handleForwardMessage (history : List Msg) (additionalMessage : String) :
    Option (String × String) :=
  match lastAssistant history with
  | none => none
  | some m =>
    let sourceTool := m.tool
    let targetTool := if sourceTool = "claude" then "gemini" else "claude"
    let sourceDisplayName := if sourceTool = "claude" then "Claude Code" else "Gemini CLI"
    some (targetTool, sdkForwardPrompt sourceDisplayName m.content additionalMessage)

/-! ## Session message logs (claim C9)

`SessionManager.send` (session.ts lines 114-135) appends the user message,
then runs the adapter; on failure it pops the freshly appended user message
and rethrows.  `SDKSession.sendToTool` (sdk-session.ts lines 295-323) does
the same on `conversationHistory`.  The adapter call itself never touches
the message list, so its outcome is passed in as a value. -/

/-- Message of `SessionManager` (session.ts lines 6-11); timestamps are
passed in as abstract values. -/
structure SMessage where
  role : Role
  tool : String
  content : String
  timestamp : Nat
deriving DecidableEq

/-- `SessionManager.send` restricted to its message-log effect and result:
`userTime` and `assistantTime` are the two `new Date()` values. -/
def smSend (msgs : List SMessage) (toolName message : String) (userTime : Nat)
    (toolResult : Except String String) (assistantTime : Nat) :
    List SMessage × Except String String :=
  let msgs1 := msgs ++ [⟨Role.user, toolName, message, userTime⟩]
  match toolResult with
  | Except.ok r => (msgs1 ++ [⟨Role.assistant, toolName, r, assistantTime⟩], Except.ok r)
  | Except.error e => (msgs1.dropLast, Except.error e)

/-- `SDKSession.sendToTool` restricted to its `conversationHistory` effect. -/
def sdkSendToTool (history : List Msg) (activeTool message : String)
    (toolResult : Except String String) : List Msg :=
  let h1 := history ++ [⟨activeTool, Role.user, message⟩]
  match toolResult with
  | Except.ok r => h1 ++ [⟨activeTool, Role.assistant, r⟩]
  | Except.error _ => h1.dropLast

theorem dropLast_append_singleton {α : Type _} (l : List α) (a : α) :
    (l ++ [a]).dropLast = l :=
  List.dropLast_concat

/-! ## `ToolDaemon` (src/src/daemon.ts lines 25-266)

The daemon is embedded as a record of its private fields; nullable object
fields become `Bool` presence flags (`ptyAlive` for `this.pty`,
`resolverPending` for `this.responseResolver`, `timerArmed` for
`this.responseTimeoutId`, `interactiveHandler` for
`this.interactiveStdinHandler`).  Each event handler and method becomes a
pure transition function; promise settlements performed by a transition are
returned as a list of `DEvent`s.  The `send` promise is created with a
`resolve` callback only (daemon.ts line 184), so the embedding has no
rejection event for a pending send: none exists in the source. -/

inductive DState where
  | starting
  | ready
  | busy
  | interactive
  | dead
deriving DecidableEq

def DState.text : DState → String
  | DState.starting => "starting"
  | DState.ready => "ready"
  | DState.busy => "busy"
  | DState.interactive => "interactive"
  | DState.dead => "dead"

/-- `DaemonConfig` (daemon.ts lines 5-17); the prompt pattern is modelled
as an optional Boolean predicate on the (ANSI-stripped) output buffer. -/
structure DaemonConfig where
  name : String
  displayName : String
  command : String
  args : List String
  promptPattern : Option (String → Bool)
  responseTimeout : Nat
  startupTimeout : Nat

structure Daemon where
  cfg : DaemonConfig
  ptyAlive : Bool
  state : DState
  outputBuffer : String
  responseBuffer : String
  lastResponse : String
  resolverPending : Bool
  timerArmed : Bool
  interactiveHandler : Bool

/-- A freshly constructed `ToolDaemon` (daemon.ts lines 26-43): no pty,
state `starting`, empty buffers, no pending resolver, no timer. -/
def mkDaemon (c : DaemonConfig) : Daemon :=
  { cfg := c, ptyAlive := false, state := DState.starting, outputBuffer := "",
    responseBuffer := "", lastResponse := "", resolverPending := false,
    timerArmed := false, interactiveHandler := false }

/-- Promise settlements a transition can perform.  `resolved raw` is the
pending `send` promise being resolved with the raw response buffer
(daemon.ts line 166).  The source never rejects a pending send. -/
inductive DEvent where
  | resolved (raw : String)
deriving DecidableEq

/-- The synchronous part of `ToolDaemon.start` (daemon.ts lines 64-82):
throws if a pty already exists, otherwise spawns the pty.  Note that the
source does not reset `state`, the buffers, or any response bookkeeping
when restarting; readiness detection later (see `onData` and
`readyByStartupTimeout`) only fires from state `starting`. -/
def startSpawn (d : Daemon) : Except String Daemon :=
  if d.ptyAlive then Except.error (d.cfg.displayName ++ " daemon is already running")
  else Except.ok { d with ptyAlive := true }

/-- The ready-detection tail of the `onData` handler (daemon.ts lines
109-117): while `starting` and with a prompt pattern configured, test it
against the ANSI-stripped output buffer and become `ready` on a match. -/
def maybeReady (d : Daemon) : Daemon :=
  if d.state = DState.starting then
    match d.cfg.promptPattern with
    | some p => if p (stripAnsi d.outputBuffer) then { d with state := DState.ready } else d
    | none => d
  else d

/-- The `onData` handler (daemon.ts lines 96-118): append to the output
buffer; while `busy` with a pending resolver, append to the response buffer
and re-arm the idle timer; then the ready detection of `maybeReady`. -/
def onData (d : Daemon) (data : String) : Daemon :=
  let d1 := { d with outputBuffer := d.outputBuffer ++ data }
  let d2 := if d1.state = DState.busy ∧ d1.resolverPending = true then
      { d1 with responseBuffer := d1.responseBuffer ++ data, timerArmed := true }
    else d1
  maybeReady d2

/-- The five-second fallback ready timer installed when no prompt pattern
is configured (daemon.ts lines 129-138). -/
def readyByStartupTimeout (d : Daemon) : Daemon :=
  match d.cfg.promptPattern with
  | none => if d.state = DState.starting then { d with state := DState.ready } else d
  | some _ => d

/-- `completeResponse` (daemon.ts lines 157-171), as fired by the idle
timer: clear the timer; if a resolver is pending, store the sanitized
buffer as `lastResponse`, resolve the promise with the raw buffer, clear
resolver and buffer, and return to `ready` unconditionally. -/
def timerFire (d : Daemon) : Daemon × List DEvent :=
  let d1 := { d with timerArmed := false }
  if d1.resolverPending then
    ({ d1 with lastResponse := jsTrim (stripAnsi d1.responseBuffer),
               resolverPending := false, responseBuffer := "",
               state := DState.ready },
     [DEvent.resolved d1.responseBuffer])
  else (d1, [])

/-- The `onExit` handler (daemon.ts lines 121-126): it only sets the state
to `dead` (and emits an `exit` event).  It does not clear `this.pty`, the
response buffer, the armed idle timer, or the pending resolver. -/
def onExit (d : Daemon) (_exitCode : Int) : Daemon :=
  { d with state := DState.dead }

/-- Result of `ToolDaemon.send` (daemon.ts lines 176-195): the updated
daemon, the strings written to the pty, and the error thrown, if any.
There is no queue of any kind in the source: a rejected send leaves the
daemon exactly as it was and writes nothing. -/
structure SendRes where
  daemon : Daemon
  writes : List String
  err : Option String

def send (d : Daemon) (command : String) : SendRes :=
  if d.ptyAlive = false then
    ⟨d, [], some (d.cfg.displayName ++ " daemon is not running")⟩
  else if d.state ≠ DState.ready then
    ⟨d, [], some (d.cfg.displayName ++ " is not ready (state: " ++ d.state.text ++ ")")⟩
  else
    let dBusy := { d with state := DState.busy, responseBuffer := "",
                          resolverPending := true, timerArmed := true }
    ⟨dBusy, [command ++ "\n"], none⟩

/-- `enterInteractiveMode` (daemon.ts lines 200-219): throws without a pty;
otherwise sets state `interactive` and installs the stdin handler.  It
performs no check of the current state and touches no other daemon. -/
def enterInteractiveMode (d : Daemon) : Except String Daemon :=
  if d.ptyAlive = false then
    Except.error (d.cfg.displayName ++ " daemon is not running")
  else Except.ok { d with state := DState.interactive, interactiveHandler := true }

/-- `exitInteractiveMode` (daemon.ts lines 224-235). -/
def exitInteractiveMode (d : Daemon) : Daemon :=
  { d with interactiveHandler := false, state := DState.ready }

/-- `stop` (daemon.ts lines 249-258). -/
def stop (d : Daemon) : Daemon :=
  let d1 := if d.interactiveHandler then exitInteractiveMode d else d
  { d1 with ptyAlive := false, state := DState.dead }

/-- One observable transition of a single `ToolDaemon`. -/
inductive DStep : Daemon → Daemon → Prop where
  | spawn (d d' : Daemon) : startSpawn d = Except.ok d' → DStep d d'
  | data (d : Daemon) (s : String) : d.ptyAlive = true → DStep d (onData d s)
  | startupReady (d : Daemon) : d.ptyAlive = true → DStep d (readyByStartupTimeout d)
  | timer (d : Daemon) : d.timerArmed = true → DStep d (timerFire d).1
  | exited (d : Daemon) (code : Int) : d.ptyAlive = true → DStep d (onExit d code)
  | sendOk (d : Daemon) (command : String) :
      (send d command).err = none → DStep d (send d command).daemon
  | enterI (d d' : Daemon) : enterInteractiveMode d = Except.ok d' → DStep d d'
  | exitI (d : Daemon) : DStep d (exitInteractiveMode d)
  | stopped (d : Daemon) : DStep d (stop d)

/-- Daemon states reachable from a fresh `ToolDaemon` by the observable
transitions. -/
inductive DReach : Daemon → Prop where
  | init (c : DaemonConfig) : DReach (mkDaemon c)
  | step (d d' : Daemon) : DReach d → DStep d d' → DReach d'

/-! ## `DaemonManager` (src/src/daemon.ts lines 271-396)

The `Map<string, ToolDaemon>` is modelled as an association list in
insertion order (`register` keeps keys unique: `Map.set` overwrites);
JavaScript mutation of a daemon object through a shared reference becomes
an in-place update of the association list at that key. -/

structure Manager where
  daemons : List (String × Daemon)
  activeDaemon : Option String

def lookupD (m : Manager) (name : String) : Option Daemon :=
  (m.daemons.find? (fun p => p.1 = name)).map Prod.snd

def updateD (m : Manager) (name : String) (d : Daemon) : Manager :=
  { m with daemons := m.daemons.map (fun p => if p.1 = name then (name, d) else p) }

/-- The first half of `DaemonManager.setActive` (daemon.ts lines 363-367):
look up the previously active daemon and, if it is in interactive state,
take it out of interactive mode.  Only the previously active daemon is ever
checked. -/
def exitPrevInteractive (m : Manager) : Manager :=
  match m.activeDaemon with
  | none => m
  | some prev =>
    match lookupD m prev with
    | some dp =>
      if dp.state = DState.interactive then updateD m prev (exitInteractiveMode dp)
      else m
    | none => m

/-- `DaemonManager.setActive` (daemon.ts lines 358-370): unknown names
throw; otherwise the previously active daemon is taken out of interactive
mode if needed and the active pointer moves. -/
def setActive (m : Manager) (name : String) : Except String Manager :=
  if (lookupD m name).isNone then Except.error ("Unknown tool: " ++ name)
  else Except.ok { exitPrevInteractive m with activeDaemon := some name }

/-- `ToolDaemon.enterInteractiveMode` invoked on the daemon registered
under `name` (the daemons are exposed by `DaemonManager.get`); mutating the
shared object updates the registry entry. -/
def enterInteractiveOn (m : Manager) (name : String) : Except String Manager :=
  match lookupD m name with
  | none => Except.error ("Unknown tool: " ++ name)
  | some d =>
    match enterInteractiveMode d with
    | Except.error e => Except.error e
    | Except.ok d' => Except.ok (updateD m name d')

/-- `DaemonManager.startOne` (daemon.ts lines 302-315): unknown names
throw; a daemon whose state is neither `starting` nor `dead` is considered
already running and the call returns with no effect (in particular the
active pointer is not moved); otherwise `daemon.start()` is awaited and the
daemon becomes active.  Only the synchronous spawn part of `start` is
modelled (`startSpawn`); in the source the `this.activeDaemon = name`
assignment happens after the awaited `start()` promise resolves, which
requires a later readiness transition (see `onData` and
`readyByStartupTimeout`) — the eager assignment here is not relied upon by
any theorem about a daemon whose start never resolves. -/
def startOne (m : Manager) (name : String) : Except String Manager :=
  match lookupD m name with
  | none => Except.error ("Unknown tool: " ++ name)
  | some d =>
    if d.state ≠ DState.starting ∧ d.state ≠ DState.dead then Except.ok m
    else
      match startSpawn d with
      | Except.error e => Except.error e
      | Except.ok d' => Except.ok { (updateD m name d') with activeDaemon := some name }

/-- Invariant: any daemon in interactive state is the active one. -/
def interactiveOnlyActive (m : Manager) : Prop :=
  ∀ p ∈ m.daemons, p.2.state = DState.interactive → m.activeDaemon = some p.1

/-- Well-formed registry: keys are unique (guaranteed by `Map.set`). -/
def wfKeys (m : Manager) : Prop := (m.daemons.map Prod.fst).Nodup

/-- At most one registered daemon is in interactive state. -/
def atMostOneInteractive (m : Manager) : Prop :=
  ∀ p ∈ m.daemons, ∀ q ∈ m.daemons,
    p.2.state = DState.interactive → q.2.state = DState.interactive → p = q

theorem find_isSome_of_mem (l : List (String × Daemon)) (p : String × Daemon)
    (hp : p ∈ l) : (l.find? (fun q => q.1 = p.1)).isSome := by
  induction l with
  | nil => cases hp
  | cons q rest ih =>
    by_cases hq : q.1 = p.1
    · rw [List.find?_cons_of_pos _ (by simp [hq])]
      rfl
    · rcases List.mem_cons.mp hp with hp1 | hp1
      · exact absurd (by rw [hp1]) hq
      · rw [List.find?_cons_of_neg _ (by simp [hq])]
        exact ih hp1

theorem find_eq_of_mem_nodup (l : List (String × Daemon))
    (hw : (l.map Prod.fst).Nodup) (p : String × Daemon) (hp : p ∈ l) :
    l.find? (fun q => q.1 = p.1) = some p := by
  induction l with
  | nil => cases hp
  | cons q rest ih =>
    rw [List.map_cons, List.nodup_cons] at hw
    rcases List.mem_cons.mp hp with hp1 | hp1
    · subst hp1
      rw [List.find?_cons_of_pos _ (by simp)]
    · have hq : ¬ q.1 = p.1 := fun he => hw.1 (he ▸ List.mem_map_of_mem Prod.fst hp1)
      rw [List.find?_cons_of_neg _ (by simp [hq])]
      exact ih hw.2 hp1

theorem lookup_isSome_of_mem (m : Manager) (p : String × Daemon)
    (hp : p ∈ m.daemons) : (lookupD m p.1).isSome := by
  unfold lookupD
  cases hfind : m.daemons.find? (fun q => q.1 = p.1) with
  | none =>
    have h1 := find_isSome_of_mem m.daemons p hp
    rw [hfind] at h1
    cases h1
  | some q => rfl

theorem lookup_eq_of_mem_nodup (m : Manager) (p : String × Daemon)
    (hw : wfKeys m) (hp : p ∈ m.daemons) : lookupD m p.1 = some p.2 := by
  unfold lookupD
  rw [find_eq_of_mem_nodup m.daemons hw p hp]
  rfl

theorem mem_pair_eq_of_nodup_keys {l : List (String × Daemon)}
    (hw : (l.map Prod.fst).Nodup) {p q : String × Daemon}
    (hp : p ∈ l) (hq : q ∈ l) (hk : p.1 = q.1) : p = q := by
  induction l with
  | nil => cases hp
  | cons r rest ih =>
    rw [List.map_cons, List.nodup_cons] at hw
    rcases List.mem_cons.mp hp with hp1 | hp1 <;> rcases List.mem_cons.mp hq with hq1 | hq1
    · rw [hp1, hq1]
    · subst hp1
      exact absurd (hk ▸ List.mem_map_of_mem Prod.fst hq1) hw.1
    · subst hq1
      exact absurd (hk ▸ List.mem_map_of_mem Prod.fst hp1) hw.1
    · exact ih hw.2 hp1 hq1

theorem find_map_update (l : List (String × Daemon)) (name : String) (d' : Daemon)
    (h : (l.find? (fun q => q.1 = name)).isSome) :
    ((l.map (fun p => if p.1 = name then (name, d') else p)).find?
      (fun q => q.1 = name)) = some (name, d') := by
  induction l with
  | nil => simp [List.find?] at h
  | cons q rest ih =>
    by_cases hq : q.1 = name
    · rw [List.map_cons, if_pos hq, List.find?_cons_of_pos _ (by simp)]
    · rw [List.find?_cons_of_neg _ (by simp [hq])] at h
      rw [List.map_cons, if_neg hq, List.find?_cons_of_neg _ (by simp [hq])]
      exact ih h

theorem lookup_updateD (m : Manager) (name : String) (d' : Daemon)
    (h : (lookupD m name).isSome) :
    lookupD (updateD m name d') name = some d' := by
  unfold lookupD at h ⊢
  unfold updateD
  have h2 : (m.daemons.find? (fun q => q.1 = name)).isSome := by
    cases hf : m.daemons.find? (fun q => q.1 = name) with
    | none => rw [hf] at h; simp at h
    | some q => rfl
  dsimp only
  rw [find_map_update m.daemons name d' h2]
  rfl

/-! ### Reduction lemmas for the manager operations -/

theorem exitPrevInteractive_of_none (m : Manager) (hact : m.activeDaemon = none) :
    exitPrevInteractive m = m := by
  unfold exitPrevInteractive
  rw [hact]

theorem exitPrevInteractive_of_lookup_none (m : Manager) (prev : String)
    (hact : m.activeDaemon = some prev) (hlk : lookupD m prev = none) :
    exitPrevInteractive m = m := by
  unfold exitPrevInteractive
  rw [hact]
  show (match lookupD m prev with
    | some dp =>
      if dp.state = DState.interactive then updateD m prev (exitInteractiveMode dp)
      else m
    | none => m) = m
  rw [hlk]

theorem exitPrevInteractive_of_lookup_some (m : Manager) (prev : String) (dp : Daemon)
    (hact : m.activeDaemon = some prev) (hlk : lookupD m prev = some dp) :
    exitPrevInteractive m =
      if dp.state = DState.interactive then updateD m prev (exitInteractiveMode dp)
      else m := by
  unfold exitPrevInteractive
  rw [hact]
  show (match lookupD m prev with
    | some dp =>
      if dp.state = DState.interactive then updateD m prev (exitInteractiveMode dp)
      else m
    | none => m) = _
  rw [hlk]

theorem setActive_ok (m : Manager) (name : String)
    (hnn : (lookupD m name).isNone = false) :
    setActive m name =
      Except.ok { exitPrevInteractive m with activeDaemon := some name } := by
  unfold setActive
  rw [hnn]
  rw [if_neg (by decide)]

theorem enterInteractiveOn_some (m : Manager) (name : String) (d : Daemon)
    (hl : lookupD m name = some d) :
    enterInteractiveOn m name =
      match enterInteractiveMode d with
      | Except.error e => Except.error e
      | Except.ok d' => Except.ok (updateD m name d') := by
  unfold enterInteractiveOn
  rw [hl]

theorem startOne_some (m : Manager) (name : String) (d : Daemon)
    (hl : lookupD m name = some d) :
    startOne m name =
      if d.state ≠ DState.starting ∧ d.state ≠ DState.dead then Except.ok m
      else
        match startSpawn d with
        | Except.error e => Except.error e
        | Except.ok d' =>
          Except.ok { (updateD m name d') with activeDaemon := some name } := by
  unfold startOne
  rw [hl]

/-! ### Field-preservation lemmas for the daemon transitions -/

theorem maybeReady_cases (d : Daemon) :
    maybeReady d = d ∨ maybeReady d = { d with state := DState.ready } := by
  unfold maybeReady
  split_ifs with h1
  · cases hp : d.cfg.promptPattern with
    | none => exact Or.inl rfl
    | some p =>
      dsimp only
      split_ifs with h2
      · exact Or.inr rfl
      · exact Or.inl rfl
  · exact Or.inl rfl

theorem maybeReady_of_not_starting (d : Daemon) (h : ¬ d.state = DState.starting) :
    maybeReady d = d := by
  unfold maybeReady
  rw [if_neg h]

theorem maybeReady_fields (d : Daemon) :
    (maybeReady d).cfg = d.cfg ∧ (maybeReady d).ptyAlive = d.ptyAlive ∧
    (maybeReady d).outputBuffer = d.outputBuffer ∧
    (maybeReady d).responseBuffer = d.responseBuffer ∧
    (maybeReady d).lastResponse = d.lastResponse ∧
    (maybeReady d).resolverPending = d.resolverPending ∧
    (maybeReady d).timerArmed = d.timerArmed ∧
    (maybeReady d).interactiveHandler = d.interactiveHandler := by
  rcases maybeReady_cases d with h | h
  · rw [h]
    exact ⟨rfl, rfl, rfl, rfl, rfl, rfl, rfl, rfl⟩
  · rw [h]
    exact ⟨rfl, rfl, rfl, rfl, rfl, rfl, rfl, rfl⟩

theorem onData_eq (d : Daemon) (s : String) :
    onData d s = maybeReady (if d.state = DState.busy ∧ d.resolverPending = true
      then { d with outputBuffer := d.outputBuffer ++ s,
                    responseBuffer := d.responseBuffer ++ s, timerArmed := true }
      else { d with outputBuffer := d.outputBuffer ++ s }) := by
  unfold onData
  dsimp only

theorem onData_responseBuffer (d : Daemon) (s : String) :
    (onData d s).responseBuffer =
      if d.state = DState.busy ∧ d.resolverPending = true
      then d.responseBuffer ++ s else d.responseBuffer := by
  rw [onData_eq, (maybeReady_fields _).2.2.2.1]
  split_ifs with h <;> rfl

theorem onData_resolverPending (d : Daemon) (s : String) :
    (onData d s).resolverPending = d.resolverPending := by
  rw [onData_eq, (maybeReady_fields _).2.2.2.2.2.1]
  split_ifs with h <;> rfl

theorem onData_ptyAlive (d : Daemon) (s : String) :
    (onData d s).ptyAlive = d.ptyAlive := by
  rw [onData_eq, (maybeReady_fields _).2.1]
  split_ifs with h <;> rfl

theorem onData_state_of_dead (d : Daemon) (s : String)
    (h : d.state = DState.dead) : (onData d s).state = DState.dead := by
  have h2 : ¬ (d.state = DState.busy ∧ d.resolverPending = true) := by
    rw [h]
    rintro ⟨h3, -⟩
    cases h3
  rw [onData_eq, if_neg h2, maybeReady_of_not_starting]
  · exact h
  · show ¬ d.state = DState.starting
    rw [h]
    rintro h4
    cases h4

theorem readyByStartupTimeout_of_not_starting (d : Daemon)
    (h : ¬ d.state = DState.starting) : readyByStartupTimeout d = d := by
  unfold readyByStartupTimeout
  cases hp : d.cfg.promptPattern with
  | none => rw [if_neg h]
  | some p => rfl

theorem readyByStartupTimeout_cases (d : Daemon) :
    readyByStartupTimeout d = d ∨
      readyByStartupTimeout d = { d with state := DState.ready } := by
  unfold readyByStartupTimeout
  cases hp : d.cfg.promptPattern with
  | none =>
    split_ifs with h1
    · exact Or.inr rfl
    · exact Or.inl rfl
  | some p => exact Or.inl rfl

/-! ## The session-continuation flag

The specification's per-process session-continuation flag corresponds in
this repository to adapter and session state: `GeminiAdapter.hasActiveSession`
(src/src/adapters/gemini.ts line 27) and `SDKSession.claudeHasSession` /
`geminiHasSession` (src/src/sdk-session.ts lines 133-134), each set by its
own send path.  Nothing in src/src/daemon.ts reads or writes any such flag,
so pairing a `ToolDaemon` with the flag and running a daemon transition
carries the flag through unchanged. -/

def timerFireFlag (df : Daemon × Bool) : (Daemon × Bool) × List DEvent :=
  (((timerFire df.1).1, df.2), (timerFire df.1).2)

/-! ## Concrete states used by counterexamples and witnesses -/

def exCfg : DaemonConfig :=
  { name := "gemini", displayName := "Gemini CLI", command := "gemini", args := [],
    promptPattern := some (fun s => s == "> "), responseTimeout := 1500,
    startupTimeout := 60000 }

def exD0 : Daemon := mkDaemon exCfg

def exD1 : Daemon := { exD0 with ptyAlive := true }

def exD2 : Daemon := onData exD1 "> "

def exD3 : Daemon := (send exD2 "hi").daemon

def exD4 : Daemon := onData exD3 "x"

def exD5 : Daemon := onExit exD4 0

def exD6 : Daemon := onData exD3 "\u001B[31mhi "

theorem reach_exD2 : DReach exD2 :=
  DReach.step exD1 exD2
    (DReach.step exD0 exD1 (DReach.init exCfg) (DStep.spawn exD0 exD1 rfl))
    (DStep.data exD1 "> " rfl)

theorem reach_exD3 : DReach exD3 :=
  DReach.step exD2 exD3 reach_exD2 (DStep.sendOk exD2 "hi" (by decide))

theorem reach_exD4 : DReach exD4 :=
  DReach.step exD3 exD4 reach_exD3 (DStep.data exD3 "x" (by decide))

theorem reach_exD5 : DReach exD5 :=
  DReach.step exD4 exD5 reach_exD4 (DStep.exited exD4 0 (by decide))

/-- Sanity check of the chain: after the prompt pattern matched, the daemon
is ready; after `send` it is busy with an armed timer; after the data chunk
the response buffer holds the chunk. -/
theorem exChain_sanity :
    exD2.state = DState.ready ∧ exD3.state = DState.busy ∧
    exD3.resolverPending = true ∧ exD4.responseBuffer = "x" ∧
    exD5.ptyAlive = true := by
  refine ⟨?_, ?_, ?_, ?_, ?_⟩ <;> decide

/-! ## Claim C1: forward envelope format -/

/-- Claim C1, counterexample: `SessionManager.forward` with its default
options does not produce the envelope the claim states.  For the last
Claude Code response `"X"` and no additional message it emits
`"Another AI assistant (Claude Code) proposed the following. Please review
and provide feedback:"` with no closing fence, not the claimed
`"provided this response. Please review and share your thoughts:"`
envelope. -/
theorem claim1_counterexample :
    sessionForwardPrompt none "Claude Code" "X" none ≠
      specForwardEnvelope "Claude Code" "X" "" := by
  decide

/-- Claim C1, amended: the claimed envelope is exactly what
`SDKSession.handleForward` produces (with the additional-context suffix
appended iff the message argument is non-empty, and the target tool being
the other tool), while `SessionManager.forward` with default options
produces the `"proposed the following. Please review and provide
feedback:"` lead-in followed by the content, adding the closing fence and
`"Additional context:"` only when an additional prompt is supplied. -/
theorem claim1_forward_envelopes (name X m : String) :
    sdkForwardPrompt name X m = specForwardEnvelope name X m ∧
    sessionForwardPrompt none name X none = sessionForwardLeadIn name ++ X ∧
    (m ≠ "" → sessionForwardPrompt none name X (some m) =
      sessionForwardLeadIn name ++ X ++ "\n---\n\nAdditional context: " ++ m) ∧
    (∀ history : List Msg,
      lastAssistant history = some ⟨"claude", Role.assistant, X⟩ →
      handleForwardMessage history m =
        some ("gemini", specForwardEnvelope "Claude Code" X m)) := by
  refine ⟨rfl, ?_, ?_, ?_⟩
  · simp [sessionForwardPrompt]
  · intro hm
    simp [sessionForwardPrompt, hm, String.append_assoc]
  · intro history hla
    simp only [handleForwardMessage, hla]
    rfl

theorem claim1_witness :
    ("extra" : String) ≠ "" ∧
    sdkForwardPrompt "Claude Code" "X" "extra" =
      specForwardEnvelope "Claude Code" "X" "extra" ∧
    sessionForwardPrompt none "Claude Code" "X" (some "extra") =
      sessionForwardLeadIn "Claude Code" ++ "X" ++
        "\n---\n\nAdditional context: " ++ "extra" := by
  have h := claim1_forward_envelopes "Claude Code" "X" "extra"
  exact ⟨by decide, h.1, h.2.2.1 (by decide)⟩

/-! ## Claim C2: process death while Busy -/

/-- Claim C2 names a behavior the code does not implement: evaluating the
embedded code at the failing input (the reachable busy daemon `exD4` with
pending send and response buffer `"x"`, whose process then exits) shows the
exit handler leaves the pending resolver unsettled with no rejection of any
kind (the send promise has no reject callback at all), and the still-armed
idle timer afterwards resolves the send normally with the partial buffer
and puts the dead daemon back into `ready`. -/
theorem claim2_exit_evaluation :
    exD5 = onExit exD4 0 ∧
    exD4.state = DState.busy ∧ exD4.resolverPending = true ∧
    exD5.state = DState.dead ∧ exD5.resolverPending = true ∧
    exD5.timerArmed = true ∧
    (timerFire exD5).2 = [DEvent.resolved "x"] ∧
    (timerFire exD5).1.state = DState.ready ∧
    (timerFire exD5).1.lastResponse = "x" := by
  refine ⟨rfl, ?_, ?_, ?_, ?_, ?_, ?_, ?_, ?_⟩ <;> decide

/-! ## Claim C4: idle-timer completion -/

/-- Claim C4, counterexample: completing a send by the idle timer does not
set any session-continuation flag.  At the reachable busy daemon `exD4`
paired with the repository's session-continuation flag in its cleared
state, the flag is still clear after the completion, so the claimed
conjunction is false. -/
theorem claim4_counterexample :
    ¬ ((timerFireFlag (exD4, false)).1.1.lastResponse =
        jsTrim (stripAnsi exD4.responseBuffer) ∧
       (timerFireFlag (exD4, false)).1.1.responseBuffer = "" ∧
       (timerFireFlag (exD4, false)).1.2 = true ∧
       (timerFireFlag (exD4, false)).1.1.state = DState.ready) := by
  decide

/-- Claim C4, amended: for every send completed by the idle timer firing,
afterwards `getLastResponse()` equals the ANSI-stripped and trimmed
response buffer, the response buffer is empty and the state is `ready`;
no session-continuation flag is set, because `ToolDaemon` maintains none —
the repository's session flags live on the adapters and the SDK session
and are carried through a completion unchanged. -/
theorem claim4_idle_completion (d : Daemon) (flag : Bool)
    (h : d.resolverPending = true) :
    (timerFire d).1.lastResponse = jsTrim (stripAnsi d.responseBuffer) ∧
    (timerFire d).1.responseBuffer = "" ∧
    (timerFire d).1.state = DState.ready ∧
    (timerFireFlag (d, flag)).1.2 = flag := by
  unfold timerFireFlag timerFire
  dsimp only
  rw [if_pos h]
  exact ⟨rfl, rfl, rfl, rfl⟩

theorem claim4_witness :
    exD4.resolverPending = true ∧
    (timerFire exD4).1.responseBuffer = "" ∧
    (timerFire exD4).1.state = DState.ready := by
  have h := claim4_idle_completion exD4 false (by decide)
  exact ⟨by decide, h.2.1, h.2.2.1⟩

/-! ## Claim C5: send while not ready -/

/-- Claim C5, confirmed: whenever the daemon's state is not `ready`
(covering `busy` in particular, and also a missing pty), `send` returns an
error, leaves the daemon exactly as it was (in particular it does not enter
`busy`), performs no pty write, and — the state being fully unchanged and
no queue existing in the embedding, which mirrors the absence of any queue
in the source — queues nothing. -/
theorem claim5_send_rejects (d : Daemon) (command : String)
    (h : d.state ≠ DState.ready) :
    (send d command).daemon = d ∧ (send d command).writes = [] ∧
    (send d command).err.isSome = true := by
  unfold send
  by_cases hp : d.ptyAlive = false
  · rw [if_pos hp]
    exact ⟨rfl, rfl, rfl⟩
  · rw [if_neg hp, if_pos h]
    exact ⟨rfl, rfl, rfl⟩

theorem claim5_witness :
    exD3.state ≠ DState.ready ∧
    (send exD3 "again").daemon = exD3 ∧
    (send exD3 "again").writes = [] ∧
    (send exD3 "again").err.isSome = true := by
  have h := claim5_send_rejects exD3 "again" (by decide)
  exact ⟨by decide, h.1, h.2.1, h.2.2⟩

/-! ## Claim C8: sanitizer idempotence -/

/-- Claim C8, counterexample: `stripAnsi` is not idempotent.  On
`ESC ESC [ 0 m [ 3 1 m` the first pass removes the inner `ESC [0m` and
thereby splices the leading ESC together with the trailing `[31m` into a
new escape sequence, which a second pass removes. -/
theorem claim8_counterexample :
    stripAnsi (stripAnsi "\u001B\u001B[0m[31m") ≠
      stripAnsi "\u001B\u001B[0m[31m" := by
  decide

/-- Claim C8, amended: sanitizing already-clean text returns it unchanged —
`stripAnsi` is the identity on every string that contains no ESC character.
Full idempotence fails (see the counterexample), because removing one
escape sequence can splice together a new one. -/
theorem claim8_clean_fixed (s : String) (h : escChar ∉ s.data) :
    stripAnsi s = s :=
  stripAnsi_of_not_mem_esc s h

theorem claim8_witness :
    escChar ∉ ("hello" : String).data ∧ stripAnsi "hello" = "hello" :=
  ⟨by decide, claim8_clean_fixed "hello" (by decide)⟩

/-! ## Claim C9: failed send leaves the log unchanged -/

/-- Claim C9, confirmed: in both session layers, when the underlying tool
send fails, the message log after the failed send equals the log before it
— the freshly recorded user message is popped again. -/
theorem claim9_failed_send_log (msgs : List SMessage) (history : List Msg)
    (toolName message activeTool e : String) (userTime assistantTime : Nat) :
    (smSend msgs toolName message userTime (Except.error e) assistantTime).1 = msgs ∧
    sdkSendToTool history activeTool message (Except.error e) = history := by
  unfold smSend sdkSendToTool
  dsimp only
  exact ⟨dropLast_append_singleton msgs _, dropLast_append_singleton history _⟩

/-! ## Claim C10: raw resolution value versus sanitized last response -/

/-- Claim C10, confirmed: a send completed by the idle timer resolves with
the raw accumulated buffer, `getLastResponse()` afterwards returns its
ANSI-stripped and trimmed form, and the two differ whenever the raw buffer
contains an ANSI escape sequence (`stripAnsi` changes it) or leading or
trailing whitespace (`jsTrim` changes it). -/
theorem claim10_raw_vs_sanitized (d : Daemon) (h : d.resolverPending = true) :
    (timerFire d).2 = [DEvent.resolved d.responseBuffer] ∧
    (timerFire d).1.lastResponse = jsTrim (stripAnsi d.responseBuffer) ∧
    ((stripAnsi d.responseBuffer ≠ d.responseBuffer ∨
      jsTrim d.responseBuffer ≠ d.responseBuffer) →
      (timerFire d).1.lastResponse ≠ d.responseBuffer) := by
  unfold timerFire
  dsimp only
  rw [if_pos h]
  refine ⟨rfl, rfl, ?_⟩
  intro hdisj heq
  dsimp only at heq
  have hne : jsTrim (stripAnsi d.responseBuffer) ≠ d.responseBuffer → False := fun hn => hn heq
  rcases hdisj with hs | ht
  · have hlt : (jsTrim (stripAnsi d.responseBuffer)).length < d.responseBuffer.length :=
      lt_of_le_of_lt (jsTrim_length_le _) (stripAnsi_length_lt_of_ne _ hs)
    rw [heq] at hlt
    exact lt_irrefl _ hlt
  · by_cases hs : stripAnsi d.responseBuffer = d.responseBuffer
    · rw [hs] at heq
      exact ht heq
    · have hlt : (jsTrim (stripAnsi d.responseBuffer)).length < d.responseBuffer.length :=
        lt_of_le_of_lt (jsTrim_length_le _) (stripAnsi_length_lt_of_ne _ hs)
      rw [heq] at hlt
      exact lt_irrefl _ hlt

theorem claim10_witness :
    exD6.resolverPending = true ∧
    (timerFire exD6).2 = [DEvent.resolved exD6.responseBuffer] ∧
    (timerFire exD6).1.lastResponse ≠ exD6.responseBuffer := by
  have h := claim10_raw_vs_sanitized exD6 (by decide)
  exact ⟨by decide, h.1, h.2.2 (Or.inl (by decide))⟩

/-! ## Claim C3: response buffer non-empty only while Busy -/

/-- Claim C3, counterexample: the invariant fails at a reachable state.
After a send and a data chunk, a process exit leaves the daemon `dead` with
the response buffer still holding `"x"` — the exit handler does not clear
it. -/
theorem claim3_counterexample :
    DReach exD5 ∧ exD5.responseBuffer ≠ "" ∧ exD5.state ≠ DState.busy :=
  ⟨reach_exD5, by decide, by decide⟩

/-- Claim C3, amended: over every reachable daemon state, the response
buffer is non-empty only while a send is still pending (the resolver is
set): that is the case in state `busy`, but also in `dead` (after a process
exit or a `stop` that happened while busy) and in `interactive` (after
`enterInteractiveMode` was called while busy), because none of those
transitions clears the buffer.  Data arrival and response completion do
preserve the busy-only form. -/
theorem claim3_buffer_invariant (d : Daemon) (h : DReach d) :
    d.responseBuffer ≠ "" → d.resolverPending = true := by
  induction h with
  | init c =>
    intro hb
    exact absurd rfl hb
  | step d0 d1 hr hs ih =>
    cases hs with
    | spawn _ hok =>
      unfold startSpawn at hok
      split_ifs at hok with hp
      injection hok with h2
      subst h2
      exact ih
    | data s hpty =>
      rw [onData_responseBuffer, onData_resolverPending]
      by_cases hbp : d0.state = DState.busy ∧ d0.resolverPending = true
      · intro _
        exact hbp.2
      · rw [if_neg hbp]
        exact ih
    | startupReady hpty =>
      rcases readyByStartupTimeout_cases d0 with h1 | h1
      · rw [h1]
        exact ih
      · rw [h1]
        exact ih
    | timer htm =>
      unfold timerFire
      dsimp only
      split_ifs with hpend
      · intro hb
        exact absurd rfl hb
      · exact ih
    | exited code hpty =>
      exact ih
    | sendOk command herr =>
      unfold send
      dsimp only
      split_ifs with h1 h2
      · exact ih
      · exact ih
      · intro _
        rfl
    | enterI _ hok =>
      unfold enterInteractiveMode at hok
      split_ifs at hok with hp
      injection hok with h2
      subst h2
      exact ih
    | exitI =>
      exact ih
    | stopped =>
      unfold stop
      dsimp only
      split_ifs with h1
      · exact ih
      · exact ih

theorem claim3_witness :
    DReach exD4 ∧ exD4.responseBuffer ≠ "" ∧ exD4.resolverPending = true :=
  ⟨reach_exD4, by decide, claim3_buffer_invariant exD4 reach_exD4 (by decide)⟩

/-! ## Claim C6: at most one Interactive daemon -/

def exCfgClaude : DaemonConfig :=
  { name := "claude", displayName := "Claude Code", command := "claude", args := [],
    promptPattern := none, responseTimeout := 3000, startupTimeout := 60000 }

def exCfgGemini : DaemonConfig :=
  { name := "gemini", displayName := "Gemini CLI", command := "gemini", args := [],
    promptPattern := none, responseTimeout := 3000, startupTimeout := 60000 }

def exDA : Daemon := readyByStartupTimeout { (mkDaemon exCfgClaude) with ptyAlive := true }

def exDB : Daemon := readyByStartupTimeout { (mkDaemon exCfgGemini) with ptyAlive := true }

def exMgr0 : Manager :=
  { daemons := [("claude", exDA), ("gemini", exDB)], activeDaemon := some "claude" }

def exMgrI1 : Manager :=
  updateD exMgr0 "claude" { exDA with state := DState.interactive, interactiveHandler := true }

def exMgrI2 : Manager :=
  updateD exMgrI1 "gemini" { exDB with state := DState.interactive, interactiveHandler := true }

/-- Claim C6, counterexample: `ToolDaemon.enterInteractiveMode` performs no
exclusion of other daemons, so entering interactive mode on the active
daemon and then directly on a second, non-active daemon (both exposed by
`DaemonManager.get`) leaves both daemons in interactive state at once. -/
theorem claim6_counterexample :
    enterInteractiveOn exMgr0 "claude" = Except.ok exMgrI1 ∧
    enterInteractiveOn exMgrI1 "gemini" = Except.ok exMgrI2 ∧
    (lookupD exMgrI2 "claude").map Daemon.state = some DState.interactive ∧
    (lookupD exMgrI2 "gemini").map Daemon.state = some DState.interactive :=
  ⟨rfl, rfl, rfl, rfl⟩

/-- Claim C6, amended: `setActive` transitions only the *previously active*
daemon out of interactive mode before the switch; under the discipline that
interactive mode is entered only on the currently active daemon the
invariant "every interactive daemon is the active one" is preserved — and
with unique registry keys it implies at most one daemon is interactive —
but `enterInteractiveMode` itself excludes no other daemon, so entering
interactive mode on a non-active daemon can leave two daemons
simultaneously interactive (see the counterexample). -/
theorem claim6_single_interactive (m : Manager) (name : String)
    (hw : wfKeys m) (hii : interactiveOnlyActive m) :
    atMostOneInteractive m ∧
    (∀ m', setActive m name = Except.ok m' → interactiveOnlyActive m') ∧
    (m.activeDaemon = some name →
      ∀ m', enterInteractiveOn m name = Except.ok m' → interactiveOnlyActive m') := by
  refine ⟨?_, ?_, ?_⟩
  · intro p hp q hq hpi hqi
    have h1 := hii p hp hpi
    have h2 := hii q hq hqi
    rw [h1] at h2
    exact mem_pair_eq_of_nodup_keys hw hp hq (Option.some.inj h2)
  · intro m' hok
    by_cases hnn : (lookupD m name).isNone = true
    · unfold setActive at hok
      rw [if_pos hnn] at hok
      exact Except.noConfusion hok
    · have hnn2 : (lookupD m name).isNone = false := by
        cases h : (lookupD m name).isNone
        · rfl
        · exact absurd h hnn
      rw [setActive_ok m name hnn2] at hok
      injection hok with h2
      subst h2
      cases hact : m.activeDaemon with
      | none =>
        rw [exitPrevInteractive_of_none m hact]
        intro p hp hpi
        have h3 := hii p hp hpi
        rw [hact] at h3
        exact Option.noConfusion h3
      | some prev =>
        cases hlk : lookupD m prev with
        | none =>
          rw [exitPrevInteractive_of_lookup_none m prev hact hlk]
          intro p hp hpi
          have h3 := hii p hp hpi
          rw [hact] at h3
          have h4 := lookup_isSome_of_mem m p hp
          rw [← Option.some.inj h3, hlk] at h4
          simp at h4
        | some dp =>
          rw [exitPrevInteractive_of_lookup_some m prev dp hact hlk]
          split_ifs with hdi
          · intro p hp hpi
            obtain ⟨q, hq, hpq⟩ := List.mem_map.mp hp
            by_cases hqp : q.1 = prev
            · rw [if_pos hqp] at hpq
              rw [← hpq] at hpi
              simp [exitInteractiveMode] at hpi
            · rw [if_neg hqp] at hpq
              rw [← hpq] at hpi
              have h3 := hii q hq hpi
              rw [hact] at h3
              exact absurd (Option.some.inj h3).symm hqp
          · intro p hp hpi
            have h3 := hii p hp hpi
            rw [hact] at h3
            have h4 := lookup_eq_of_mem_nodup m p hw hp
            rw [← Option.some.inj h3, hlk] at h4
            rw [← Option.some.inj h4] at hpi
            exact absurd hpi hdi
  · intro hact m' hok
    cases hlk : lookupD m name with
    | none =>
      unfold enterInteractiveOn at hok
      rw [hlk] at hok
      exact Except.noConfusion hok
    | some d =>
      rw [enterInteractiveOn_some m name d hlk] at hok
      cases hEI : enterInteractiveMode d with
      | error e =>
        rw [hEI] at hok
        exact Except.noConfusion hok
      | ok d' =>
        rw [hEI] at hok
        have hok2 : Except.ok (updateD m name d') = Except.ok m' := hok
        injection hok2 with h2
        subst h2
        intro p hp hpi
        obtain ⟨q, hq, hpq⟩ := List.mem_map.mp hp
        by_cases hqp : q.1 = name
        · rw [if_pos hqp] at hpq
          rw [← hpq]
          exact hact
        · rw [if_neg hqp] at hpq
          rw [← hpq] at hpi
          have h3 := hii q hq hpi
          rw [hact] at h3
          exact absurd (Option.some.inj h3).symm hqp

theorem claim6_witness : atMostOneInteractive exMgr0 := by
  have hw : wfKeys exMgr0 := by
    unfold wfKeys
    decide
  have hii : interactiveOnlyActive exMgr0 := by
    intro p hp hpi
    rcases List.mem_cons.mp hp with h1 | h1
    · subst h1
      rfl
    · rcases List.mem_cons.mp h1 with h2 | h2
      · subst h2
        exact absurd hpi (by decide)
      · cases h2
  exact (claim6_single_interactive exMgr0 "gemini" hw hii).1

/-! ## Claim C7: startOne idempotence and re-spawn -/

def exMgrDead : Manager :=
  { daemons := [("gemini", exD5)], activeDaemon := some "gemini" }

def exMgrReady : Manager :=
  { daemons := [("gemini", exD2)], activeDaemon := some "gemini" }

/-- Claim C7, counterexample: `startOne` on a daemon that is `dead` because
its process exited does not re-spawn it successfully — the exit handler
never clears the pty handle, so the restart throws "daemon is already
running".  `exD5` is exactly such a reachable daemon (see
`claim3_counterexample` for its reachability chain). -/
theorem claim7_counterexample :
    exD5.state = DState.dead ∧ exD5.ptyAlive = true ∧
    startOne exMgrDead "gemini" =
      Except.error "Gemini CLI daemon is already running" :=
  ⟨by decide, by decide, rfl⟩

/-- Claim C7, amended: `startOne` is idempotent when the daemon is `ready`,
`busy` or `interactive` (it returns successfully, changing nothing).  When
the daemon is `dead` it attempts a restart, which succeeds at spawning only
if the pty handle was cleared (`stop()`); a daemon that died on its own
still holds its pty handle and the restart throws.  Even a successful
re-spawn leaves the state `dead` — `start()` never resets it — so the
readiness detection (which requires state `starting`) can never fire and no
data chunk or startup timer makes the daemon ready again.  No
session-continuation resume hint exists: the spawn uses the registered
configuration unchanged. -/
theorem claim7_startOne (m : Manager) (name : String) (d : Daemon)
    (hl : lookupD m name = some d) :
    ((d.state = DState.ready ∨ d.state = DState.busy ∨ d.state = DState.interactive) →
      startOne m name = Except.ok m) ∧
    (d.state = DState.dead → d.ptyAlive = true →
      startOne m name = Except.error (d.cfg.displayName ++ " daemon is already running")) ∧
    (d.state = DState.dead → d.ptyAlive = false →
      startOne m name =
        Except.ok { (updateD m name { d with ptyAlive := true }) with
                    activeDaemon := some name } ∧
      lookupD (updateD m name { d with ptyAlive := true }) name =
        some { d with ptyAlive := true } ∧
      ({ d with ptyAlive := true } : Daemon).state = DState.dead ∧
      (∀ s, (onData { d with ptyAlive := true } s).state = DState.dead) ∧
      readyByStartupTimeout { d with ptyAlive := true } = { d with ptyAlive := true } ∧
      ({ d with ptyAlive := true } : Daemon).cfg = d.cfg) := by
  rw [startOne_some m name d hl]
  refine ⟨?_, ?_, ?_⟩
  · intro hst
    have hcond : d.state ≠ DState.starting ∧ d.state ≠ DState.dead := by
      rcases hst with h | h | h <;> rw [h] <;>
        exact ⟨(fun hc => by cases hc), (fun hc => by cases hc)⟩
    rw [if_pos hcond]
  · intro hdead hpty
    have hcond : ¬ (d.state ≠ DState.starting ∧ d.state ≠ DState.dead) :=
      fun hc => hc.2 hdead
    rw [if_neg hcond]
    unfold startSpawn
    rw [if_pos hpty]
  · intro hdead hpty
    have hcond : ¬ (d.state ≠ DState.starting ∧ d.state ≠ DState.dead) :=
      fun hc => hc.2 hdead
    have hnp : ¬ d.ptyAlive = true := by
      rw [hpty]
      decide
    rw [if_neg hcond]
    unfold startSpawn
    rw [if_neg hnp]
    refine ⟨rfl, ?_, hdead, ?_, ?_, rfl⟩
    · apply lookup_updateD
      rw [hl]
      rfl
    · intro s
      exact onData_state_of_dead _ s hdead
    · apply readyByStartupTimeout_of_not_starting
      intro hc
      have hc2 : d.state = DState.starting := hc
      rw [hdead] at hc2
      cases hc2

theorem claim7_witness :
    lookupD exMgrReady "gemini" = some exD2 ∧
    startOne exMgrReady "gemini" = Except.ok exMgrReady :=
  ⟨rfl, (claim7_startOne exMgrReady "gemini" exD2 rfl).1 (Or.inl (by decide))⟩

end AicSpec
